import Mathlib

/-!
A verification development for the reshape-and-merge pipeline of
`src/app.py`: the two cleaning functions `limpiar_tributos` and
`limpiar_contribuyentes`, the ranking function `procesar_logica`, and the
available-years computation of the `dashboard` route.

Modelling conventions.

* A spreadsheet cell is text or empty: `Cell := Option String`, with `none`
  standing for a missing value (pandas `NaN`).  This is exactly the shape of
  data the CSV reading path delivers; numeric cells arrive as text.
* Numbers are `ℚ` (the script works with pandas float64; every claim under
  study is stated in exact arithmetic).
* Python `str.strip` / `str.upper` are modelled character-listwise
  (`pyStrip`, `pyUpper`), and `pd.to_numeric(errors='coerce')` on a text
  cell as a decimal-numeral parser (`parseNum`): optional sign, digits, one
  optional decimal point.  An unparsable string gives `none` (pandas `NaN`).
* Fallible steps (a header index out of range, a missing `Mes`/`Año`
  column before `melt`, a composite key that does not split in two) are the
  places where the script would raise; they are modelled by `Option`.
-/

/-- A raw grid cell: text, or empty (`none` models pandas `NaN`). -/
abbrev Cell := Option String

/-- A raw grid: rows of cells (`pd.read_csv(..., header=None)` output). -/
abbrev Grid := List (List Cell)

/-- Python `str(cell)`: a missing value prints as `"nan"`. -/
def cellStr (c : Cell) : String := c.getD "nan"

/-- Python `str.strip` on a list of characters: drop leading and trailing
whitespace. -/
def pyStripL (l : List Char) : List Char :=
  ((l.dropWhile Char.isWhitespace).reverse.dropWhile Char.isWhitespace).reverse

/-- Python `str.strip`. -/
def pyStrip (s : String) : String := String.mk (pyStripL s.data)

/-- Python `str.upper` on one character (ASCII letters; other characters are
unchanged). -/
def pyCharUpper (c : Char) : Char :=
  if 97 ≤ c.toNat ∧ c.toNat ≤ 122 then Char.ofNat (c.toNat - 32) else c

/-- Python `str.upper`. -/
def pyUpper (s : String) : String := String.mk (s.data.map pyCharUpper)

/-- Python `str.startswith`, character-listwise. -/
def pyStartswith (pre s : String) : Bool := pre.data.isPrefixOf s.data

/-- Python `needle in hay` on strings: substring containment. -/
def containsSub (needle hay : String) : Bool :=
  (List.range (hay.data.length + 1)).any fun k =>
    needle.data.isPrefixOf (hay.data.drop k)

/-- The numeric value of a digit character. -/
def digitVal (c : Char) : ℕ := c.toNat - 48

/-- The natural number a digit string denotes (`0` for the empty string). -/
def digitsNat (l : List Char) : ℕ := l.foldl (fun n c => n * 10 + digitVal c) 0

/-- `pd.to_numeric(errors='coerce')` on a text value, modelled as a decimal
numeral parser: surrounding whitespace, an optional sign, digits with at most
one decimal point (at least one digit).  Anything else is `none` (pandas
`NaN`).  The integer branch builds its rational by a cast alone, so that
concrete runs reduce inside the kernel. -/
def parseNum (s : String) : Option ℚ :=
  let t := (pyStrip s).data
  let core : List Char × Bool :=
    match t with
    | '-' :: rest => (rest, true)
    | '+' :: rest => (rest, false)
    | l => (l, false)
  let intPart := core.1.takeWhile fun c => c != '.'
  let rest := core.1.dropWhile fun c => c != '.'
  if ¬ (intPart.all Char.isDigit) then none
  else
    match rest with
    | [] =>
      if intPart.isEmpty then none
      else if core.2 then some (-(digitsNat intPart : ℚ))
      else some (digitsNat intPart : ℚ)
    | _ :: frac =>
      if frac.contains '.' ∨ ¬ (frac.all Char.isDigit) then none
      else if intPart.isEmpty ∧ frac.isEmpty then none
      else
        let q : ℚ := (digitsNat intPart : ℚ) + (digitsNat frac : ℚ) / 10 ^ frac.length
        some (if core.2 then -q else q)

/-- `pd.to_numeric(errors='coerce')` on a cell. -/
def cellNum (c : Cell) : Option ℚ := c.bind parseNum

/-- Line 44 of `app.py`: `pd.to_numeric(df_long['Recaudacion'],
errors='coerce').fillna(0)` — an unparsable or missing collection value
becomes `0`. -/
def coerceRecaudacion (c : Cell) : ℚ := (cellNum c).getD 0

/-- Line 76 of `app.py`: `pd.to_numeric(df_long['Contribuyentes'],
errors='coerce').fillna(1)` — an unparsable or missing taxpayer count
becomes `1`. -/
def coerceContribuyentes (c : Cell) : ℚ := (cellNum c).getD 1

/-- The column count of the rectangular frame pandas builds from a ragged
grid: the widest row. -/
def ancho (g : Grid) : ℕ := (g.map List.length).foldr max 0

/-- Pad a row to the frame width with missing values (pandas pads short rows
with `NaN`). -/
def padRow (w : ℕ) (r : List Cell) : List Cell := r ++ List.replicate (w - r.length) none

/-- Line 27 of `app.py`: the header-row test of `limpiar_tributos` — the
row's values, as strings, contain `'Mes'` and `'Amazonas'` or `'AMAZONAS'`. -/
def rowCondA (row : List Cell) : Bool :=
  let strs := row.map cellStr
  strs.contains "Mes" && (strs.contains "Amazonas" || strs.contains "AMAZONAS")

/-- Lines 24–31 of `app.py`: scan the rows from the top for the first one
passing `rowCondA`; if none does, fall back to row index 1. -/
def findHeaderIdx (g : Grid) : ℕ :=
  go 0 g
where
  /-- The scan loop: `for i, row in df_raw.iterrows()`. -/
  go : ℕ → Grid → ℕ
    | _, [] => 1
    | i, r :: rs => if rowCondA r then i else go (i + 1) rs

/-- Lines 33–38 of `app.py`: take the header row as column labels, strip
each label, and if neither `Mes` nor `Año` is among them rename the first
two columns to `Mes` and `Año` (the rename dictionary is keyed by the
labels of positions 0 and 1, modelled positionally).  `none` models the
exceptions: a header index beyond the grid, or a rename on fewer than two
columns (`df.columns[1]` raises there). -/
def colsA (g : Grid) : Option (List String) :=
  let w := ancho g
  let hIdx := findHeaderIdx g
  match g.get? hIdx with
  | none => none
  | some row =>
    let cols := (padRow w row).map fun c => pyStrip (cellStr c)
    if "Mes" ∈ cols ∨ "Año" ∈ cols then some cols
    else if 2 ≤ cols.length then some ((cols.set 0 "Mes").set 1 "Año")
    else none

/-- One row of the long frame `df.melt(...)` builds in `limpiar_tributos`:
the month cell, the year cell, the region column label, the value cell. -/
structure MeltA where
  Mes : Cell
  anio : Cell
  Departamento : String
  Recaudacion : Cell
deriving Repr, DecidableEq

/-- Lines 40–43 of `app.py`: the wide-to-long reshape of the collection
grid.  `value_vars` keeps the columns that are not `Mes`/`Año` and do not
contain `Unnamed`; one output row per (value column, body row) pair. -/
def melt_tributos (g : Grid) : Option (List MeltA) :=
  let w := ancho g
  let hIdx := findHeaderIdx g
  match colsA g with
  | none => none
  | some cols =>
    match List.findIdx? (fun c => c == "Mes") cols,
          List.findIdx? (fun c => c == "Año") cols with
    | some mi, some ai =>
      let body := (g.drop (hIdx + 1)).map (padRow w)
      let value_vars := cols.enum.filter fun p =>
        ¬ (p.2 = "Mes" ∨ p.2 = "Año" ∨ containsSub "Unnamed" p.2)
      some <| value_vars.flatMap fun p =>
        body.map fun r => ⟨r.getD mi none, r.getD ai none, p.2, r.getD p.1 none⟩
    | _, _ => none

/-- Line 47 of `app.py`: region normalization of the collection relation —
`.str.upper().str.strip()`, uppercase then trim. -/
def normDeptTrib (s : String) : String := pyStrip (pyUpper s)

/-- A record of the cleaned collection relation (long format).  The year is
kept as `Option ℚ` so that the drop of unparsable years (line 46) is a
filter, not a typing artifact. -/
structure TribRec where
  Mes : Cell
  anio : Option ℚ
  Departamento : String
  Recaudacion : ℚ
deriving Repr, DecidableEq

/-- Lines 22–48 of `app.py` (`limpiar_tributos`): melt, coerce the value
column with default `0`, parse the year, drop records with an unparsable
year, and normalize the region label (uppercase then strip). -/
def limpiar_tributos (g : Grid) : Option (List TribRec) :=
  (melt_tributos g).map fun rows =>
    (rows.map fun q =>
      TribRec.mk q.Mes (cellNum q.anio) (normDeptTrib q.Departamento)
        (coerceRecaudacion q.Recaudacion)).filter fun t => t.anio.isSome

/-- Line 60 of `app.py`: the test under which a year header cell updates
`current_year` — the cell is present and its stripped text is neither empty
nor `'nan'`.  The raw text is what is stored. -/
def validYearCell : Cell → Option String
  | none => none
  | some s => if pyStrip s = "nan" ∨ pyStrip s = "" then none else some s

/-- Lines 54–65 of `app.py`: the column-label loop of
`limpiar_contribuyentes`.  The state is `current_year`; `i` is the running
column index.  Column 0 is always `Departamento`; a column with a
forward-filled year and a month cell is labelled `year_month`; any other
column is labelled `DROP_i`. -/
def newColsAux (cy : Option String) (i : ℕ) : List (Cell × Cell) → List String
  | [] => []
  | (y, m) :: rest =>
    let cy' := match validYearCell y with
      | some s => some s
      | none => cy
    let label :=
      if i = 0 then "Departamento"
      else match cy', m with
        | some yr, some mo => yr ++ "_" ++ mo
        | _, _ => "DROP_" ++ toString i
    label :: newColsAux cy' (i + 1) rest

/-- Lines 52–65 of `app.py`: the constructed column labels, from the year
row (row 0) and the month row (row 1). -/
def new_cols (years months : List Cell) : List String :=
  newColsAux none 0 (years.zip months)

/-- Line 69 of `app.py`: the kept columns, as (index, label) pairs — those
whose label does not start with `DROP`. -/
def keptCols (g : Grid) : List (ℕ × String) :=
  let w := ancho g
  ((new_cols (padRow w (g.getD 0 [])) (padRow w (g.getD 1 []))).enum).filter
    fun p => ¬ pyStartswith "DROP" p.2

/-- One row of the long frame `df.melt(id_vars=['Departamento'])` builds in
`limpiar_contribuyentes`: the region cell, the composite `Year_Mes` label,
the value cell. -/
structure MeltB where
  Departamento : Cell
  Year_Mes : String
  Contribuyentes : Cell
deriving Repr, DecidableEq

/-- Lines 52–71 of `app.py`: the wide-to-long reshape of the taxpayer grid.
`none` models the exception raised when the grid has fewer than two header
rows (`df_raw.iloc[0]` / `iloc[1]`).  Data rows start at row index 2. -/
def melt_contribuyentes (g : Grid) : Option (List MeltB) :=
  if 2 ≤ g.length then
    let w := ancho g
    let body := (g.drop 2).map (padRow w)
    let value_vars := (keptCols g).filter fun p => ¬ p.2 = "Departamento"
    some <| value_vars.flatMap fun p =>
      body.map fun r => ⟨r.getD 0 none, p.2, r.getD p.1 none⟩
  else none

/-- The split loop behind `pySplit`: characters read so far (reversed) are
the accumulator; a separator closes a piece. -/
def pySplitAux (sep : Char) : List Char → List Char → List (List Char)
  | [], acc => [acc.reverse]
  | c :: cs, acc =>
    if c = sep then acc.reverse :: pySplitAux sep cs []
    else pySplitAux sep cs (c :: acc)

/-- Python `str.split(sep)` for a one-character separator (the `'_'` split
of line 72): every occurrence splits, and the empty string yields `[""]`. -/
def pySplit (sep : Char) (s : String) : List String :=
  (pySplitAux sep s.data []).map String.mk

/-- Line 74 of `app.py`: the month-abbreviation table `mapa_meses`. -/
def mapa_meses : List (String × String) :=
  [("Ene.", "Enero"), ("Feb.", "Febrero"), ("Mar.", "Marzo"), ("Abr.", "Abril"),
   ("May.", "Mayo"), ("Jun.", "Junio"), ("Jul.", "Julio"), ("Ago.", "Agosto"),
   ("Sep.", "Septiembre"), ("Set.", "Septiembre"), ("Oct.", "Octubre"),
   ("Nov.", "Noviembre"), ("Dic.", "Diciembre")]

/-- Line 75 of `app.py`: `.map(mapa_meses).fillna(original)` — a token in
the table is replaced by its full month name, any other token passes
through unchanged. -/
def normMes (s : String) : String := ((mapa_meses.lookup s).getD s)

/-- Line 78 of `app.py`: region normalization of the taxpayer relation —
uppercase, strip, then the exact-label replacement
`'LIMA METROPOLITANA' ↦ 'LIMA'`.  A missing region cell stays missing. -/
def normDeptCont (c : Cell) : Option String :=
  c.map fun s =>
    let u := normDeptTrib s
    if u = "LIMA METROPOLITANA" then "LIMA" else u

/-- A record of the cleaned taxpayer relation (long format).  Note there is
no drop of unparsable years in `limpiar_contribuyentes`: the year stays as
`Option ℚ` and a record with `none` is retained. -/
structure ContRec where
  Departamento : Option String
  anio : Option ℚ
  Mes : String
  Contribuyentes : ℚ
deriving Repr, DecidableEq

/-- Lines 72–78 of `app.py`: split the composite `Year_Mes` label on `_`,
normalize the month, coerce the taxpayer count with default `1`, parse the
year (kept even when unparsable), and normalize the region.  `none` models
the `ValueError` raised when the split does not give exactly two parts. -/
def buildCont (m : MeltB) : Option ContRec :=
  match pySplit '_' m.Year_Mes with
  | [a, mo] => some
      { Departamento := normDeptCont m.Departamento
        anio := parseNum a
        Mes := normMes mo
        Contribuyentes := coerceContribuyentes m.Contribuyentes }
  | _ => none

/-- Build every record or fail (the split error of line 72 aborts the whole
frame, not one row). -/
def mapOpt (f : α → Option β) : List α → Option (List β)
  | [] => some []
  | a :: t =>
    match f a, mapOpt f t with
    | some b, some bs => some (b :: bs)
    | _, _ => none

/-- Lines 50–79 of `app.py` (`limpiar_contribuyentes`).  An empty melt is
`none` as well: `str.split(expand=True)` on an empty column produces no
columns and the two-column assignment of line 72 raises. -/
def limpiar_contribuyentes (g : Grid) : Option (List ContRec) :=
  (melt_contribuyentes g).bind fun rows =>
    if rows.isEmpty then none else mapOpt buildCont rows

/-- A row of the merged relation (line 83 of `app.py`): the inner join of a
collection record and a taxpayer record on (`Departamento`, `Año`, `Mes`). -/
structure MergedRec where
  Mes : Cell
  anio : Option ℚ
  Departamento : String
  Recaudacion : ℚ
  Contribuyentes : ℚ
deriving Repr, DecidableEq

/-- Line 83 of `app.py`: `pd.merge(df_trib, df_cont, on=['Departamento',
'Año', 'Mes'], how='inner')` — each collection row in order, paired with
every taxpayer row whose three key fields are equal.  A missing key on
either side (`none`) can only match a missing key, as pandas `merge`
matches `NaN` keys; the collection side's region and month live in
different shapes (label string / cell), so the comparison lifts them. -/
def df_merged (trib : List TribRec) (cont : List ContRec) : List MergedRec :=
  trib.flatMap fun t => cont.filterMap fun c =>
    if some t.Departamento = c.Departamento ∧ t.anio = c.anio ∧ t.Mes = some c.Mes
    then some ⟨t.Mes, t.anio, t.Departamento, t.Recaudacion, c.Contribuyentes⟩
    else none

/-- Line 86 of `app.py`: keep the joined rows of the target year (`NaN`
years compare unequal to any number, as in pandas). -/
def df_filtrado (trib : List TribRec) (cont : List ContRec) (anio_target : ℚ) :
    List MergedRec :=
  (df_merged trib cont).filter fun m => decide (m.anio = some anio_target)

/-- One row of the final ranking frame. -/
structure RankRow where
  Departamento : String
  Recaudacion : ℚ
  Contribuyentes : ℚ
  Soles_por_Contribuyente : ℚ
deriving Repr, DecidableEq

/-- Python string comparison (lexicographic by code point), on character
lists. -/
def charListLe : List Char → List Char → Bool
  | [], _ => true
  | _ :: _, [] => false
  | a :: as, b :: bs =>
    if a.toNat < b.toNat then true
    else if b.toNat < a.toNat then false
    else charListLe as bs

/-- Python `a <= b` on strings: lexicographic by code point. -/
def strLe (a b : String) : Bool := charListLe a.data b.data

/-- Lines 93–99 of `app.py`: `groupby('Departamento')` (group keys sorted
ascending, as pandas does), aggregate the collection by sum and the taxpayer
count by mean, then derive `Soles_por_Contribuyente = Recaudacion *
1_000_000 / Contribuyentes`. -/
def agrupar (filt : List MergedRec) : List RankRow :=
  (((filt.map (·.Departamento)).dedup.insertionSort fun a b : String => strLe a b = true).map
    fun d =>
      let rows := filt.filter fun m => decide (m.Departamento = d)
      let total := (rows.map (·.Recaudacion)).sum
      let avg := (rows.map (·.Contribuyentes)).sum / (rows.length : ℚ)
      ⟨d, total, avg, total * 1000000 / avg⟩)

/-- Line 100 of `app.py`: `sort_values('Soles_por_Contribuyente',
ascending=False)`.  pandas `nargsort` computes an ascending argsort of the
key and reverses the indexer for a descending sort; on lists this is the
reverse of a stable ascending sort (numpy's argsort is stable on inputs of
this size, where it runs its insertion sort). -/
def sort_values_desc (l : List RankRow) : List RankRow :=
  (l.insertionSort fun a b =>
    a.Soles_por_Contribuyente ≤ b.Soles_por_Contribuyente).reverse

/-- Lines 81–102 of `app.py` (`procesar_logica`): join, filter to the
target year, return `None` when empty, otherwise group, derive the metric
and sort descending. -/
def procesar_logica (trib : List TribRec) (cont : List ContRec)
    (anio_target : ℚ) : Option (List RankRow) :=
  let filt := df_filtrado trib cont anio_target
  if filt.isEmpty then none else some (sort_values_desc (agrupar filt))

/-- Line 160 of `app.py`: `sorted(set(df_trib['Año'].unique()) &
set(df_cont['Año'].unique()), reverse=True)` — the years present in both
cleaned relations, each once, sorted descending.  A missing year (`NaN`)
never survives the Python set intersection, since the two relations hold
distinct `NaN` objects; hence both sides drop `none` before intersecting. -/
def anios_disponibles (trib : List TribRec) (cont : List ContRec) : List ℚ :=
  (((trib.filterMap (·.anio)).dedup.filter fun y =>
      decide (y ∈ cont.filterMap (·.anio))).insertionSort fun a b : ℚ => b ≤ a)

/-- Lines 156–163 of `app.py`: the dashboard's data path — clean both
grids, then rank for the requested year (any cleaning failure propagates as
the route's generic error). -/
def pipeline (gT gC : Grid) (anio_target : ℚ) : Option (List RankRow) :=
  match limpiar_tributos gT, limpiar_contribuyentes gC with
  | some t, some c => procesar_logica t c anio_target
  | _, _ => none

/-! Specification-side definitions.  These follow the wording of the
specification (not the code) and exist to be compared with the code-derived
definitions above: the case-insensitive header condition of §4.1/§8, the
declarative forward fill of the Shape B year row, and the header-
resolvability conditions under which the reshapers are claimed total. -/

/-- From the spec's words (§4.1, Shape A): the header row is the first row
whose cells include the literal `"Mes"` and a known region name matched
case-insensitively — instantiated, as the spec does, with `"Amazonas"` in
any letter case. -/
def claimCondA (row : List Cell) : Bool :=
  let strs := row.map cellStr
  strs.contains "Mes" && strs.any fun s => pyUpper s == "AMAZONAS"

/-- From the spec's words: the header index the case-insensitive reading
resolves — first matching row, else the fallback index 1. -/
def claimHeaderIdxA (g : Grid) : ℕ := (g.findIdx? claimCondA).getD 1

/-- Declarative forward fill of the year row (spec §4.1, Shape B): the most
recently seen valid year cell at or before column `i`. -/
def ffillYear (years : List Cell) (i : ℕ) : Option String :=
  ((years.take (i + 1)).filterMap validYearCell).getLast?

/-- The label §4.1 (Shape B) assigns to a value column: forward-filled year
and month concatenated, or a `DROP_i` marker when either is missing. -/
def labelSpec (years months : List Cell) (i : ℕ) : String :=
  match ffillYear years i, months.getD i none with
  | some yr, some mo => yr ++ "_" ++ mo
  | _, _ => "DROP_" ++ toString i

/-- The header-resolvability condition of the collection grid: the resolved
header index is a row of the grid, and after the strip-and-rename step both
`Mes` and `Año` are column labels.  Stated from the header computation
alone — no value cell is consulted. -/
def resolvableA (g : Grid) : Bool :=
  match colsA g with
  | some cols => decide ("Mes" ∈ cols) && decide ("Año" ∈ cols)
  | none => false

/-- The header-resolvability condition of the taxpayer grid: two header
rows, at least one kept value column and at least one data row (otherwise
the empty split of line 72 raises), and every kept composite label splits
into exactly two parts on `_`.  Stated from the first two rows alone. -/
def resolvableB (g : Grid) : Bool :=
  decide (2 < g.length) &&
  !((keptCols g).filter fun p => ¬ p.2 = "Departamento").isEmpty &&
  (((keptCols g).filter fun p => ¬ p.2 = "Departamento").all fun p =>
    (pySplit '_' p.2).length = 2)

/-! Helper lemmas: characters and normalization. -/

/-- A `Char.ofNat` below the surrogate range keeps its code point. -/
theorem toNat_charOfNat_small {n : ℕ} (h : n < 55296) : (Char.ofNat n).toNat = n := by
  rw [Char.ofNat, dif_pos (Or.inl h)]
  rfl

theorem pyCharUpper_toNat_of_lower {c : Char} (h : 97 ≤ c.toNat ∧ c.toNat ≤ 122) :
    (pyCharUpper c).toNat = c.toNat - 32 := by
  rw [pyCharUpper, if_pos h]
  exact toNat_charOfNat_small (by omega)

theorem pyCharUpper_idem (c : Char) : pyCharUpper (pyCharUpper c) = pyCharUpper c := by
  by_cases h : 97 ≤ c.toNat ∧ c.toNat ≤ 122
  · have h2 := pyCharUpper_toNat_of_lower h
    rw [pyCharUpper, if_neg (by omega)]
  · have hc : pyCharUpper c = c := by rw [pyCharUpper, if_neg h]
    rw [hc]
    exact hc

theorem isWhitespace_eq_false_of_toNat {c : Char} (h : 33 ≤ c.toNat) :
    c.isWhitespace = false := by
  have hs : ∀ d : Char, c = d → c.toNat = d.toNat := fun d hd => hd ▸ rfl
  simp only [Char.isWhitespace, Bool.or_eq_false_iff, decide_eq_false_iff_not]
  refine ⟨⟨⟨fun he => ?_, fun he => ?_⟩, fun he => ?_⟩, fun he => ?_⟩ <;>
    · have := hs _ he
      revert h
      simp [this]

theorem isWhitespace_pyCharUpper (c : Char) :
    (pyCharUpper c).isWhitespace = c.isWhitespace := by
  by_cases h : 97 ≤ c.toNat ∧ c.toNat ≤ 122
  · have h2 := pyCharUpper_toNat_of_lower h
    rw [isWhitespace_eq_false_of_toNat (by omega), isWhitespace_eq_false_of_toNat (by omega)]
  · rw [pyCharUpper, if_neg h]

theorem dropWhile_idem (p : α → Bool) (l : List α) :
    (l.dropWhile p).dropWhile p = l.dropWhile p := by
  cases h : l.dropWhile p with
  | nil => rfl
  | cons a t =>
    have hh := List.head?_dropWhile_not p l
    rw [h] at hh
    simp only [List.head?_cons] at hh
    rw [List.dropWhile_cons_of_neg (by simp [hh])]

/-- A prefix of a `dropWhile` result is itself `dropWhile`-stable. -/
theorem dropWhile_eq_self_of_leading {p : α → Bool} {l t : List α}
    (hp : t <+: l.dropWhile p) : t.dropWhile p = t := by
  cases ht : t with
  | nil => rfl
  | cons a s =>
    have hh := List.head?_dropWhile_not p l
    obtain ⟨u, hu⟩ := hp
    rw [ht] at hu
    rw [← hu] at hh
    simp only [List.cons_append, List.head?_cons] at hh
    rw [List.dropWhile_cons_of_neg (by simp [hh])]

theorem pyStripL_idem (l : List Char) : pyStripL (pyStripL l) = pyStripL l := by
  unfold pyStripL
  have hb_pre : (l.dropWhile Char.isWhitespace |>.reverse.dropWhile Char.isWhitespace).reverse
      <+: l.dropWhile Char.isWhitespace := by
    have hsuf := List.dropWhile_suffix (l := (l.dropWhile Char.isWhitespace).reverse)
      Char.isWhitespace
    have := List.reverse_prefix.mpr hsuf
    rwa [List.reverse_reverse] at this
  rw [dropWhile_eq_self_of_leading hb_pre, List.reverse_reverse, dropWhile_idem]

theorem map_pyStripL (f : Char → Char) (hf : ∀ c, (f c).isWhitespace = c.isWhitespace)
    (l : List Char) : pyStripL (l.map f) = (pyStripL l).map f := by
  have hpred : Char.isWhitespace ∘ f = Char.isWhitespace := funext fun c => hf c
  unfold pyStripL
  rw [List.dropWhile_map, hpred, ← List.map_reverse, List.dropWhile_map, hpred,
    ← List.map_reverse]

theorem pyUpper_pyStrip (s : String) : pyUpper (pyStrip s) = pyStrip (pyUpper s) := by
  simp only [pyUpper, pyStrip, map_pyStripL pyCharUpper isWhitespace_pyCharUpper]

theorem pyUpper_idem (s : String) : pyUpper (pyUpper s) = pyUpper s := by
  simp only [pyUpper, List.map_map]
  congr 1
  exact List.map_congr_left fun c _ => pyCharUpper_idem c

theorem pyStrip_idem (s : String) : pyStrip (pyStrip s) = pyStrip s := by
  simp only [pyStrip, pyStripL_idem]

theorem normDeptTrib_idem (s : String) : normDeptTrib (normDeptTrib s) = normDeptTrib s := by
  simp only [normDeptTrib]
  rw [pyUpper_pyStrip, pyStrip_idem, pyUpper_idem]

/-- The canonical twelve-value month enumeration (the value set of
`mapa_meses`, spec §3). -/
def mesesCanonicos : List String :=
  ["Enero", "Febrero", "Marzo", "Abril", "Mayo", "Junio", "Julio", "Agosto",
   "Septiembre", "Octubre", "Noviembre", "Diciembre"]

/-- C7: region normalization (uppercase then trim) is idempotent; the alias
remap of `"Lima Metropolitana"` to `"LIMA"` happens in the taxpayer
relation's normalizer and not in the collection relation's, which leaves
the label as `"LIMA METROPOLITANA"`. -/
theorem claim_C7 :
    (∀ s : String, normDeptTrib (normDeptTrib s) = normDeptTrib s)
    ∧ normDeptCont (some "Lima Metropolitana") = some "LIMA"
    ∧ normDeptTrib "Lima Metropolitana" = "LIMA METROPOLITANA" :=
  ⟨normDeptTrib_idem, by decide, by decide⟩

/-- C8: month normalization is total (a function on all strings) and
idempotent on the twelve canonical month names, each abbreviation in the
table (including both `"Sep."` and `"Set."`) maps to its canonical full
name, and a token outside the table passes through unchanged. -/
theorem claim_C8 :
    (∀ s ∈ mesesCanonicos, normMes s = s)
    ∧ (∀ p ∈ mapa_meses, normMes p.1 = p.2 ∧ p.2 ∈ mesesCanonicos)
    ∧ normMes "Sep." = "Septiembre" ∧ normMes "Set." = "Septiembre"
    ∧ (∀ s : String, mapa_meses.lookup s = none → normMes s = s) := by
  refine ⟨by decide, by decide, by decide, by decide, fun s h => ?_⟩
  simp [normMes, h]

/-! The header scan (Shape A) as a first-index search. -/

theorem findHeaderIdx_go_eq (l : Grid) : ∀ i : ℕ,
    findHeaderIdx.go i l = (l.findIdx? rowCondA i).getD 1 := by
  induction l with
  | nil => intro i; rfl
  | cons r rs ih =>
    intro i
    rw [findHeaderIdx.go, List.findIdx?_cons]
    by_cases h : rowCondA r
    · simp [h]
    · simp only [h, if_neg, Bool.false_eq_true, if_false]
      exact ih (i + 1)

/-- C9 (amended): the resolved header row index is the first row whose
cell strings contain the exact tokens `"Mes"` and `"Amazonas"` or
`"AMAZONAS"`; when no row passes, the fallback index is 1. -/
theorem claim_C9 (g : Grid) : findHeaderIdx g = (g.findIdx? rowCondA).getD 1 :=
  findHeaderIdx_go_eq g 0

def gC9 : Grid :=
  [[some "Mes", some "amazonas"], [some "a", some "b"], [some "c", some "d"]]

/-- C9, counterexample to the claim as stated: a grid whose first row
contains `"Mes"` and `"amazonas"` (the region name in another letter case).
The case-insensitive reading resolves row 0; the code matches only the two
exact spellings, finds nothing, and falls back to row index 1. -/
theorem claim_C9_cex : findHeaderIdx gC9 = 1 ∧ claimHeaderIdxA gC9 = 0 := by decide

/-! The Shape B column labels: the stateful loop against the declarative
forward fill. -/

/-- The forward fill with an explicit initial state: the most recent valid
year cell at or before column `i`, or the inherited state `cy`. -/
def ffillAux (cy : Option String) (ys : List Cell) (i : ℕ) : Option String :=
  match ((ys.take (i + 1)).filterMap validYearCell).getLast? with
  | some y => some y
  | none => cy

theorem ffillAux_none (ys : List Cell) (i : ℕ) : ffillAux none ys i = ffillYear ys i := by
  unfold ffillAux ffillYear
  cases ((ys.take (i + 1)).filterMap validYearCell).getLast? <;> rfl

theorem ffillAux_zero (cy : Option String) (y : Cell) (ys : List Cell) :
    ffillAux cy (y :: ys) 0 =
      (match validYearCell y with | some s => some s | none => cy) := by
  unfold ffillAux
  rw [List.take_succ_cons, List.take_zero, List.filterMap_cons]
  cases hv : validYearCell y with
  | none => rfl
  | some s => rfl

theorem ffillAux_cons (cy : Option String) (y : Cell) (ys : List Cell) (i : ℕ) :
    ffillAux cy (y :: ys) (i + 1) =
      ffillAux (match validYearCell y with | some s => some s | none => cy) ys i := by
  unfold ffillAux
  rw [List.take_succ_cons, List.filterMap_cons]
  cases hv : validYearCell y with
  | none => rfl
  | some s =>
    rw [List.getLast?_cons]
    cases h : ((ys.take (i + 1)).filterMap validYearCell).getLast? with
    | none => simp [h]
    | some r => simp [h]

theorem newColsAux_cons (cy : Option String) (j : ℕ) (y m : Cell)
    (rest : List (Cell × Cell)) :
    newColsAux cy j ((y, m) :: rest) =
      (if j = 0 then "Departamento"
       else match (match validYearCell y with | some s => some s | none => cy), m with
         | some yr, some mo => yr ++ "_" ++ mo
         | _, _ => "DROP_" ++ toString j) ::
      newColsAux (match validYearCell y with | some s => some s | none => cy) (j + 1) rest := rfl

/-- The label the loop writes at a positive position: the declarative
forward fill of the year row, and the month at that column. -/
theorem newColsAux_get? (l : List (Cell × Cell)) : ∀ (cy : Option String) (j i : ℕ),
    0 < j → i < l.length →
    (newColsAux cy j l)[i]? = some
      (match ffillAux cy (l.map Prod.fst) i, (l.map Prod.snd).getD i none with
       | some yr, some mo => yr ++ "_" ++ mo
       | _, _ => "DROP_" ++ toString (j + i)) := by
  induction l with
  | nil => intro cy j i _ hi; simp at hi
  | cons p rest ih =>
    intro cy j i hj hi
    obtain ⟨y, m⟩ := p
    rw [newColsAux_cons, if_neg (by omega)]
    cases i with
    | zero =>
      rw [List.getElem?_cons_zero]
      simp only [List.map_cons, List.getD_cons_zero, ffillAux_zero, Nat.add_zero]
    | succ i' =>
      rw [List.getElem?_cons_succ]
      rw [ih _ (j + 1) i' (by omega) (by simpa using hi)]
      simp only [List.map_cons, List.getD_cons_succ]
      rw [ffillAux_cons]
      have hji : j + 1 + i' = j + (i' + 1) := by omega
      rw [hji]

/-- C10 (amended): column 0 is always labelled `Departamento`; a later
column `i` is labelled with the forward-filled year and its month when both
are present, and with the exclusion marker `DROP_i` when the forward-filled
year or the month is missing (either one suffices, not only both); the
melted data rows are exactly the kept value columns times the rows from
index 2 on. -/
theorem claim_C10 :
    (∀ ys ms : List Cell, ms.length = ys.length → ys ≠ [] →
      (new_cols ys ms).head? = some "Departamento")
    ∧ (∀ (ys ms : List Cell) (i : ℕ), ms.length = ys.length → 0 < i → i < ys.length →
      (new_cols ys ms)[i]? = some (labelSpec ys ms i))
    ∧ (∀ (g : Grid) (rows : List MeltB), melt_contribuyentes g = some rows →
      rows.length =
        ((keptCols g).filter fun p => ¬ p.2 = "Departamento").length * (g.length - 2)) := by
  refine ⟨?_, ?_, ?_⟩
  · intro ys ms hlen hne
    cases ys with
    | nil => exact absurd rfl hne
    | cons y ys' =>
      cases ms with
      | nil => simp at hlen
      | cons m ms' =>
        rw [new_cols, List.zip_cons_cons, newColsAux_cons, if_pos rfl, List.head?_cons]
  · intro ys ms i hlen hi0 hilen
    cases ys with
    | nil => simp at hilen
    | cons y ys' =>
      cases ms with
      | nil => simp at hlen
      | cons m ms' =>
        cases i with
        | zero => omega
        | succ i' =>
          have hlen' : ms'.length = ys'.length := by simpa using hlen
          have hiys : i' < ys'.length := by
            simp only [List.length_cons] at hilen
            omega
          rw [new_cols, List.zip_cons_cons, newColsAux_cons, List.getElem?_cons_succ]
          have hzl : i' < ((ys'.zip ms')).length := by
            rw [List.length_zip, hlen', Nat.min_self]
            exact hiys
          rw [newColsAux_get? _ _ 1 i' (by omega) hzl]
          rw [List.map_fst_zip ys' ms' (by omega), List.map_snd_zip ys' ms' (by omega)]
          unfold labelSpec
          rw [← ffillAux_none, ffillAux_cons, List.getD_cons_succ, Nat.add_comm 1 i']
  · intro g rows h
    unfold melt_contribuyentes at h
    split at h
    · have hrows := Option.some.inj h
      rw [← hrows, List.length_flatMap]
      have hmap : List.map
          (List.length ∘ fun p : ℕ × String =>
            ((g.drop 2).map (padRow (ancho g))).map fun r =>
              (⟨r.getD 0 none, p.2, r.getD p.1 none⟩ : MeltB))
          ((keptCols g).filter fun p => ¬ p.2 = "Departamento") =
          List.replicate ((keptCols g).filter fun p => ¬ p.2 = "Departamento").length
            (g.length - 2) := by
        rw [← List.map_const']
        refine List.map_congr_left fun p _ => ?_
        simp [List.length_drop]
      rw [hmap, List.sum_replicate, smul_eq_mul]
    · exact absurd h (by simp)

def ysC10 : List Cell := [none, some "2024", none]

def msC10 : List Cell := [none, some "Ene.", none]

/-- C10, counterexample to the claim as stated: in a year row whose only
year is at column 1 and a month row whose only month is at column 1,
column 2 inherits the forward-filled year `"2024"` yet is labelled
`DROP_2` — it is excluded although it does not lack both a year and a
month. -/
theorem claim_C10_cex :
    new_cols ysC10 msC10 = ["Departamento", "2024_Ene.", "DROP_2"]
    ∧ ffillYear ysC10 2 = some "2024" := by decide

/-! Totality of the reshapers and the year-drop asymmetry. -/

theorem mapOpt_isSome (f : α → Option β) (l : List α) :
    (mapOpt f l).isSome = l.all fun a => (f a).isSome := by
  induction l with
  | nil => rfl
  | cons a t ih =>
    rw [mapOpt]
    cases h : f a with
    | none => simp [h]
    | some b =>
      cases ht : mapOpt f t with
      | none => simp [h, ht, ← ih]
      | some bs => simp [h, ht, ← ih]

theorem mapOpt_length (f : α → Option β) :
    ∀ (l : List α) (l' : List β), mapOpt f l = some l' → l'.length = l.length := by
  intro l
  induction l with
  | nil =>
    intro l' h
    rw [mapOpt] at h
    cases h
    rfl
  | cons a t ih =>
    intro l' h
    rw [mapOpt] at h
    cases ha : f a with
    | none => rw [ha] at h; simp at h
    | some b =>
      rw [ha] at h
      cases ht : mapOpt f t with
      | none => rw [ht] at h; simp at h
      | some bs =>
        rw [ht] at h
        cases h
        rw [List.length_cons, List.length_cons, ih bs ht]

theorem buildCont_isSome (m : MeltB) :
    (buildCont m).isSome = decide ((pySplit '_' m.Year_Mes).length = 2) := by
  unfold buildCont
  rcases h : pySplit '_' m.Year_Mes with _ | ⟨a, _ | ⟨b, _ | ⟨c, t⟩⟩⟩ <;>
    simp [List.length_cons]

theorem all_const_bool (l : List α) (b : Bool) :
    (l.all fun _ => b) = (b || l.isEmpty) := by
  induction l with
  | nil => simp
  | cons a t ih => cases b <;> simp [ih]

theorem mem_of_findIdx?_beq_eq_some {cols : List String} {a : String} {i : ℕ}
    (h : List.findIdx? (fun c => c == a) cols = some i) : a ∈ cols := by
  have hs : (List.findIdx? (fun c => c == a) cols).isSome = cols.any fun c => c == a :=
    List.findIdx?_isSome
  rw [h] at hs
  simp only [Option.isSome_some] at hs
  rw [eq_comm, List.any_eq_true] at hs
  obtain ⟨c, hc, hceq⟩ := hs
  rw [beq_iff_eq] at hceq
  exact hceq ▸ hc

theorem not_mem_of_findIdx?_beq_eq_none {cols : List String} {a : String}
    (h : List.findIdx? (fun c => c == a) cols = none) : a ∉ cols := by
  rw [List.findIdx?_eq_none_iff] at h
  intro hin
  simpa using h a hin

theorem melt_tributos_isSome (g : Grid) : (melt_tributos g).isSome = resolvableA g := by
  unfold melt_tributos resolvableA
  cases hc : colsA g with
  | none => rfl
  | some cols =>
    cases hm : List.findIdx? (fun c => c == "Mes") cols with
    | none =>
      have h1 := not_mem_of_findIdx?_beq_eq_none hm
      simp only [hm]
      simp [h1]
    | some mi =>
      have h1 := mem_of_findIdx?_beq_eq_some hm
      cases ha : List.findIdx? (fun c => c == "Año") cols with
      | none =>
        have h2 := not_mem_of_findIdx?_beq_eq_none ha
        simp only [hm, ha]
        simp [h2]
      | some ai =>
        have h2 := mem_of_findIdx?_beq_eq_some ha
        simp only [hm, ha]
        simp [h1, h2]

theorem isSome_branch (rows : List MeltB) :
    (if rows.isEmpty then none else mapOpt buildCont rows).isSome =
      (!rows.isEmpty && rows.all fun r => decide ((pySplit '_' r.Year_Mes).length = 2)) := by
  by_cases h : rows.isEmpty
  · simp [h]
  · rw [if_neg h, mapOpt_isSome]
    have hq : (fun r : MeltB => (buildCont r).isSome) =
        fun r => decide ((pySplit '_' r.Year_Mes).length = 2) := funext buildCont_isSome
    rw [hq]
    simp [h]

theorem limpiar_contribuyentes_isSome (g : Grid) :
    (limpiar_contribuyentes g).isSome = resolvableB g := by
  unfold limpiar_contribuyentes melt_contribuyentes resolvableB
  by_cases h2 : 2 ≤ g.length
  · rw [if_pos h2, Option.some_bind, isSome_branch, Bool.eq_iff_iff]
    simp only [Bool.and_eq_true, Bool.not_eq_true', List.isEmpty_eq_false,
      decide_eq_true_eq, List.all_eq_true, List.isEmpty_eq_true]
    constructor
    · rintro ⟨hne, hall⟩
      have hvne : ((keptCols g).filter fun p => ¬ p.2 = "Departamento") ≠ [] := by
        intro hv
        rw [hv] at hne
        exact hne rfl
      have hbody : (g.drop 2).map (padRow (ancho g)) ≠ [] := by
        intro hb
        apply hne
        rw [List.flatMap_eq_nil_iff]
        intro p _
        rw [hb]
        rfl
      have hlt : 2 < g.length := by
        rw [Ne, List.map_eq_nil_iff, List.drop_eq_nil_iff] at hbody
        omega
      refine ⟨⟨hlt, hvne⟩, fun p hp => ?_⟩
      obtain ⟨row0, hrow0⟩ := List.exists_mem_of_ne_nil _ hbody
      have hmem : (⟨row0.getD 0 none, p.2, row0.getD p.1 none⟩ : MeltB) ∈
          ((keptCols g).filter fun p => ¬ p.2 = "Departamento").flatMap fun p =>
            ((g.drop 2).map (padRow (ancho g))).map fun r =>
              (⟨r.getD 0 none, p.2, r.getD p.1 none⟩ : MeltB) := by
        rw [List.mem_flatMap]
        refine ⟨p, hp, ?_⟩
        rw [List.mem_map]
        exact ⟨row0, hrow0, rfl⟩
      exact hall _ hmem
    · rintro ⟨⟨hlt, hvne⟩, hall⟩
      have hbody : (g.drop 2).map (padRow (ancho g)) ≠ [] := by
        rw [Ne, List.map_eq_nil_iff, List.drop_eq_nil_iff]
        omega
      constructor
      · obtain ⟨p0, hp0⟩ := List.exists_mem_of_ne_nil _ hvne
        obtain ⟨row0, hrow0⟩ := List.exists_mem_of_ne_nil _ hbody
        refine List.ne_nil_of_mem (a := (⟨row0.getD 0 none, p0.2, row0.getD p0.1 none⟩ : MeltB)) ?_
        rw [List.mem_flatMap]
        refine ⟨p0, hp0, ?_⟩
        rw [List.mem_map]
        exact ⟨row0, hrow0, rfl⟩
      · intro r hr
        rw [List.mem_flatMap] at hr
        obtain ⟨p, hp, hrp⟩ := hr
        rw [List.mem_map] at hrp
        obtain ⟨row, _, hrow⟩ := hrp
        rw [← hrow]
        exact hall p hp
  · rw [if_neg h2, Option.none_bind]
    have hlt : ¬ 2 < g.length := by omega
    simp [hlt]

/-- C5: the reshapers are total apart from header resolution — the success
of each cleaning function is exactly the (value-independent) header
condition, and a value cell that fails numeric parsing yields the
role-specific default: `0` in the collection relation, `1` in the taxpayer
relation (so the text `"N/D"` coerces to `0` and to `1` respectively). -/
theorem claim_C5 :
    (∀ g : Grid, (limpiar_tributos g).isSome = resolvableA g)
    ∧ (∀ g : Grid, (limpiar_contribuyentes g).isSome = resolvableB g)
    ∧ (∀ c : Cell, cellNum c = none →
        coerceRecaudacion c = 0 ∧ coerceContribuyentes c = 1)
    ∧ coerceRecaudacion (some "N/D") = 0 ∧ coerceContribuyentes (some "N/D") = 1 := by
  refine ⟨fun g => ?_, limpiar_contribuyentes_isSome, fun c h => ?_, by decide, by decide⟩
  · unfold limpiar_tributos
    rw [Option.isSome_map', melt_tributos_isSome]
  · rw [coerceRecaudacion, coerceContribuyentes, h]
    exact ⟨rfl, rfl⟩

/-- C6 (amended): the collection reshaper drops every record whose year
fails to parse — all its output records carry a parsed year — but the
taxpayer reshaper keeps such records (its output has one record per melted
row, with the year left unparsed). -/
theorem claim_C6 :
    (∀ (g : Grid) (rel : List TribRec), limpiar_tributos g = some rel →
      ∀ r ∈ rel, r.anio.isSome)
    ∧ (∀ (g : Grid) (rows : List MeltB) (rel : List ContRec),
      melt_contribuyentes g = some rows → limpiar_contribuyentes g = some rel →
      rel.length = rows.length) := by
  constructor
  · intro g rel h r hr
    unfold limpiar_tributos at h
    rw [Option.map_eq_some'] at h
    obtain ⟨rows, _, hrel⟩ := h
    rw [← hrel] at hr
    exact (List.mem_filter.mp hr).2
  · intro g rows rel hm hl
    unfold limpiar_contribuyentes at hl
    rw [hm, Option.some_bind] at hl
    split at hl
    · exact absurd hl (by simp)
    · exact mapOpt_length buildCont rows rel hl

def contC6 : Grid :=
  [[none, some "abc"],
   [none, some "Ene."],
   [some "Puno", some "7"]]

/-- C6, counterexample to the claim as stated: a taxpayer grid whose year
header cell `"abc"` does not parse as a number.  The record is not dropped:
the cleaned taxpayer relation keeps it, with no year. -/
theorem claim_C6_cex :
    parseNum "abc" = none
    ∧ limpiar_contribuyentes contC6 = some [⟨some "PUNO", none, "Enero", 7⟩] := by decide

/-! The ranking stage: membership and aggregation facts. -/

theorem mem_sort_values {l : List RankRow} {row : RankRow} :
    row ∈ sort_values_desc l ↔ row ∈ l := by
  unfold sort_values_desc
  rw [List.mem_reverse, List.mem_insertionSort]

theorem procesar_eq {trib : List TribRec} {cont : List ContRec} {y : ℚ}
    {out : List RankRow} (h : procesar_logica trib cont y = some out) :
    df_filtrado trib cont y ≠ [] ∧
    out = sort_values_desc (agrupar (df_filtrado trib cont y)) := by
  simp only [procesar_logica] at h
  split at h
  · exact absurd h (by simp)
  · rename_i hne
    refine ⟨by simpa using hne, (Option.some.inj h).symm⟩

theorem mem_agrupar {filt : List MergedRec} {row : RankRow} (h : row ∈ agrupar filt) :
    row.Recaudacion = ((filt.filter fun m => decide (m.Departamento = row.Departamento)).map
      (·.Recaudacion)).sum
    ∧ row.Contribuyentes =
      ((filt.filter fun m => decide (m.Departamento = row.Departamento)).map
        (·.Contribuyentes)).sum /
      ((filt.filter fun m => decide (m.Departamento = row.Departamento)).length : ℚ)
    ∧ row.Soles_por_Contribuyente = row.Recaudacion * 1000000 / row.Contribuyentes
    ∧ (filt.filter fun m => decide (m.Departamento = row.Departamento)) ≠ [] := by
  unfold agrupar at h
  rw [List.mem_map] at h
  obtain ⟨d, hd, hrow⟩ := h
  subst hrow
  refine ⟨rfl, rfl, rfl, ?_⟩
  rw [List.mem_insertionSort, List.mem_dedup, List.mem_map] at hd
  obtain ⟨m, hm, hmd⟩ := hd
  refine List.ne_nil_of_mem (a := m) ?_
  rw [List.mem_filter]
  exact ⟨hm, by simp [hmd]⟩

theorem mem_merged_cont {trib : List TribRec} {cont : List ContRec} {m : MergedRec}
    (h : m ∈ df_merged trib cont) :
    ∃ c ∈ cont, m.Contribuyentes = c.Contribuyentes := by
  unfold df_merged at h
  rw [List.mem_flatMap] at h
  obtain ⟨t, ht, hm⟩ := h
  rw [List.mem_filterMap] at hm
  obtain ⟨c, hc, hcm⟩ := hm
  split at hcm
  · cases hcm
    exact ⟨c, hc, rfl⟩
  · cases hcm

theorem mem_merged_anio {trib : List TribRec} {cont : List ContRec} {m : MergedRec}
    (h : m ∈ df_merged trib cont) :
    (∃ t ∈ trib, m.anio = t.anio) ∧ (∃ c ∈ cont, m.anio = c.anio) := by
  unfold df_merged at h
  rw [List.mem_flatMap] at h
  obtain ⟨t, ht, hm⟩ := h
  rw [List.mem_filterMap] at hm
  obtain ⟨c, hc, hcm⟩ := hm
  split at hcm
  · rename_i hcond
    cases hcm
    exact ⟨⟨t, ht, rfl⟩, ⟨c, hc, hcond.2.1⟩⟩
  · cases hcm

def tribS1 : Grid :=
  [[some "x"],
   [some "Mes", some "Año", some "LIMA"],
   [some "Enero", some "2024", some "100"]]

def contS1 : Grid :=
  [[none, some "2024"],
   [none, some "Ene."],
   [some "Lima Metropolitana", some "50"]]

/-- C1: every ranking row carries the sum of the joined collection values of
its region in the target year, their taxpayer mean, and the derived metric;
and on the scenario-1 grids (`LIMA`/`Lima Metropolitana`, `Enero`/`Ene.`,
collection 100, taxpayers 50) the pipeline returns exactly one row
`(LIMA, 100, 50, 2000000)` for 2024. -/
theorem claim_C1 :
    (∀ (trib : List TribRec) (cont : List ContRec) (y : ℚ) (out : List RankRow),
      procesar_logica trib cont y = some out → ∀ row ∈ out,
        row.Recaudacion = (((df_filtrado trib cont y).filter
            fun m => decide (m.Departamento = row.Departamento)).map (·.Recaudacion)).sum
        ∧ row.Contribuyentes = (((df_filtrado trib cont y).filter
            fun m => decide (m.Departamento = row.Departamento)).map (·.Contribuyentes)).sum /
          ((((df_filtrado trib cont y).filter
            fun m => decide (m.Departamento = row.Departamento)).length : ℕ) : ℚ)
        ∧ row.Soles_por_Contribuyente = row.Recaudacion * 1000000 / row.Contribuyentes)
    ∧ pipeline tribS1 contS1 2024 = some [⟨"LIMA", 100, 50, 2000000⟩] := by
  constructor
  · intro trib cont y out h row hrow
    obtain ⟨-, hout⟩ := procesar_eq h
    rw [hout, mem_sort_values] at hrow
    obtain ⟨h1, h2, h3, -⟩ := mem_agrupar hrow
    exact ⟨h1, h2, h3⟩
  · have h1 : limpiar_tributos tribS1 = some [⟨some "Enero", some 2024, "LIMA", 100⟩] := by
      decide
    have h2 : limpiar_contribuyentes contS1 =
        some [⟨some "LIMA", some 2024, "Enero", 50⟩] := by decide
    have h3 : df_filtrado [⟨some "Enero", some 2024, "LIMA", 100⟩]
        [⟨some "LIMA", some 2024, "Enero", 50⟩] 2024 =
        [⟨some "Enero", some 2024, "LIMA", 100, 50⟩] := by decide
    rw [pipeline, h1, h2]
    simp only [procesar_logica, h3]
    norm_num [agrupar, sort_values_desc, List.dedup, List.insertionSort,
      List.orderedInsert, List.pwFilter]

def tC2 : List TribRec :=
  [⟨some "Enero", some 2024, "AREQUIPA", 100⟩, ⟨some "Enero", some 2024, "CUSCO", 100⟩]

def cC2 : List ContRec :=
  [⟨some "AREQUIPA", some 2024, "Enero", 50⟩, ⟨some "CUSCO", some 2024, "Enero", 50⟩]

/-- C2 (amended): the ranking is sorted in non-increasing order of the
efficiency metric and is a permutation of the aggregation result; rows with
exactly equal metric come out in the reverse of their aggregation order
(pandas reverses an ascending argsort for a descending sort), not in it. -/
theorem claim_C2 :
    ∀ (trib : List TribRec) (cont : List ContRec) (y : ℚ) (out : List RankRow),
      procesar_logica trib cont y = some out →
      List.Sorted (fun a b : RankRow =>
        b.Soles_por_Contribuyente ≤ a.Soles_por_Contribuyente) out
      ∧ out.Perm (agrupar (df_filtrado trib cont y)) := by
  intro trib cont y out h
  obtain ⟨-, hout⟩ := procesar_eq h
  subst hout
  constructor
  · unfold sort_values_desc
    rw [List.Sorted, List.pairwise_reverse]
    letI : IsTotal RankRow (fun a b : RankRow =>
        a.Soles_por_Contribuyente ≤ b.Soles_por_Contribuyente) := ⟨fun a b => le_total _ _⟩
    letI : IsTrans RankRow (fun a b : RankRow =>
        a.Soles_por_Contribuyente ≤ b.Soles_por_Contribuyente) :=
      ⟨fun a b c h1 h2 => le_trans h1 h2⟩
    exact List.sorted_insertionSort _ _
  · exact (List.reverse_perm _).trans (List.perm_insertionSort _ _)

/-- C2, counterexample to the stable-tie part: two regions with the same
metric 2000000.  The aggregation lists `AREQUIPA` before `CUSCO`
(ascending group keys); the sorted output lists `CUSCO` before `AREQUIPA` —
exact ties come out in reversed aggregation order, not the original one. -/
theorem claim_C2_cex :
    agrupar (df_filtrado tC2 cC2 2024) =
      [⟨"AREQUIPA", 100, 50, 2000000⟩, ⟨"CUSCO", 100, 50, 2000000⟩]
    ∧ procesar_logica tC2 cC2 2024 =
      some [⟨"CUSCO", 100, 50, 2000000⟩, ⟨"AREQUIPA", 100, 50, 2000000⟩] := by
  have hf : df_filtrado tC2 cC2 2024 =
      [⟨some "Enero", some 2024, "AREQUIPA", 100, 50⟩,
       ⟨some "Enero", some 2024, "CUSCO", 100, 50⟩] := by decide
  constructor
  · rw [hf]
    norm_num +decide [agrupar, List.dedup, List.pwFilter, List.insertionSort,
      List.orderedInsert, List.filter, List.sum_cons, strLe, charListLe]
  · simp only [procesar_logica, hf]
    norm_num +decide [agrupar, sort_values_desc, List.dedup, List.pwFilter,
      List.insertionSort, List.orderedInsert, List.filter, List.sum_cons, strLe, charListLe]

/-- C3 (amended): a year is available exactly when it occurs (parsed) in
both cleaned relations; the available list is sorted descending; a target
year outside it makes `procesar_logica` return the empty sentinel `none`
rather than raise; and the list is non-empty whenever some parseable year
occurs in both sources (a year on one side alone is not enough — see the
counterexample). -/
theorem claim_C3 :
    (∀ (trib : List TribRec) (cont : List ContRec) (y : ℚ),
      y ∈ anios_disponibles trib cont ↔
        (y ∈ trib.filterMap (·.anio) ∧ y ∈ cont.filterMap (·.anio)))
    ∧ (∀ (trib : List TribRec) (cont : List ContRec),
      List.Sorted (fun a b : ℚ => b ≤ a) (anios_disponibles trib cont))
    ∧ (∀ (trib : List TribRec) (cont : List ContRec) (y : ℚ),
      y ∉ anios_disponibles trib cont → procesar_logica trib cont y = none)
    ∧ (∀ (trib : List TribRec) (cont : List ContRec) (y : ℚ),
      y ∈ trib.filterMap (·.anio) → y ∈ cont.filterMap (·.anio) →
      anios_disponibles trib cont ≠ []) := by
  have hmem : ∀ (trib : List TribRec) (cont : List ContRec) (y : ℚ),
      y ∈ anios_disponibles trib cont ↔
        (y ∈ trib.filterMap (·.anio) ∧ y ∈ cont.filterMap (·.anio)) := by
    intro trib cont y
    unfold anios_disponibles
    rw [List.mem_insertionSort, List.mem_filter, List.mem_dedup]
    simp
  refine ⟨hmem, ?_, ?_, ?_⟩
  · intro trib cont
    unfold anios_disponibles
    letI : IsTotal ℚ (fun a b : ℚ => b ≤ a) := ⟨fun a b => le_total _ _⟩
    letI : IsTrans ℚ (fun a b : ℚ => b ≤ a) := ⟨fun a b c h1 h2 => le_trans h2 h1⟩
    exact List.sorted_insertionSort _ _
  · intro trib cont y hnot
    cases hp : procesar_logica trib cont y with
    | none => rfl
    | some out =>
      exfalso
      apply hnot
      obtain ⟨hne, -⟩ := procesar_eq hp
      obtain ⟨m, hm⟩ := List.exists_mem_of_ne_nil _ hne
      unfold df_filtrado at hm
      rw [List.mem_filter] at hm
      obtain ⟨hmer, hy⟩ := hm
      rw [decide_eq_true_eq] at hy
      obtain ⟨⟨t, ht, hta⟩, ⟨c, hc, hca⟩⟩ := mem_merged_anio hmer
      rw [hmem]
      constructor
      · rw [List.mem_filterMap]
        exact ⟨t, ht, by rw [← hta, hy]⟩
      · rw [List.mem_filterMap]
        exact ⟨c, hc, by rw [← hca, hy]⟩
  · intro trib cont y h1 h2
    exact List.ne_nil_of_mem ((hmem trib cont y).mpr ⟨h1, h2⟩)

def tC3 : List TribRec := [⟨some "Enero", some 2023, "LIMA", 5⟩]

def cC3 : List ContRec := [⟨some "LIMA", some 2024, "Enero", 7⟩]

/-- C3, counterexample to the non-emptiness part as stated: the collection
relation holds the parseable year 2023 and the taxpayer relation the
parseable year 2024, yet the available-years list — an intersection — is
empty although either source has a parseable year. -/
theorem claim_C3_cex :
    anios_disponibles tC3 cC3 = [] ∧ tC3.map (·.anio) = [some 2023]
    ∧ cC3.map (·.anio) = [some 2024] := by decide

def contC4 : Grid :=
  [[none, some "2024"],
   [none, some "Ene."],
   [some "Lima Metropolitana", some "0"]]

/-- C4 (amended): a ranking row's mean taxpayer count is positive — hence
the metric's division is well defined — provided every taxpayer record
carries a positive count; the default-1 policy gives exactly that for
missing or unparsable cells, but a cell that parses to `0` (or a negative
number) is kept as parsed and can defeat it (see the counterexample). -/
theorem claim_C4 :
    (∀ (trib : List TribRec) (cont : List ContRec) (y : ℚ) (out : List RankRow),
      (∀ c ∈ cont, 0 < c.Contribuyentes) →
      procesar_logica trib cont y = some out →
      ∀ row ∈ out, 0 < row.Contribuyentes)
    ∧ (∀ c : Cell, cellNum c = none → 0 < coerceContribuyentes c) := by
  constructor
  · intro trib cont y out hpos h row hrow
    obtain ⟨-, hout⟩ := procesar_eq h
    rw [hout, mem_sort_values] at hrow
    obtain ⟨-, h2, -, hne⟩ := mem_agrupar hrow
    rw [h2]
    apply div_pos
    · apply List.sum_pos
      · intro x hx
        rw [List.mem_map] at hx
        obtain ⟨m, hm, hxm⟩ := hx
        rw [List.mem_filter] at hm
        have hmer : m ∈ df_merged trib cont := by
          have := hm.1
          unfold df_filtrado at this
          exact (List.mem_filter.mp this).1
        obtain ⟨c, hc, hcm⟩ := mem_merged_cont hmer
        rw [← hxm, hcm]
        exact hpos c hc
      · simp only [Ne, List.map_eq_nil_iff]
        exact hne
    · rw [Nat.cast_pos, List.length_pos]
      exact hne
  · intro c h
    rw [coerceContribuyentes, h]
    norm_num

/-- C4, counterexample to the claim as stated: a taxpayer cell holding the
parseable text `"0"` is kept as `0` (the default-1 policy applies only to
unparsable cells), so the pipeline emits a ranking row whose mean taxpayer
count is zero — the metric's division by `avgTaxpayers` is a division by
zero (yielding `0` in the rational model). -/
theorem claim_C4_cex :
    pipeline tribS1 contC4 2024 = some [⟨"LIMA", 100, 0, 0⟩] := by
  have h1 : limpiar_tributos tribS1 = some [⟨some "Enero", some 2024, "LIMA", 100⟩] := by
    decide
  have h2 : limpiar_contribuyentes contC4 =
      some [⟨some "LIMA", some 2024, "Enero", 0⟩] := by decide
  have h3 : df_filtrado [⟨some "Enero", some 2024, "LIMA", 100⟩]
      [⟨some "LIMA", some 2024, "Enero", 0⟩] 2024 =
      [⟨some "Enero", some 2024, "LIMA", 100, 0⟩] := by decide
  rw [pipeline, h1, h2]
  simp only [procesar_logica, h3]
  norm_num [agrupar, sort_values_desc, List.dedup, List.insertionSort,
    List.orderedInsert, List.pwFilter]

/-- Witness for C2: the theorem applied to a concrete one-row instance, its
hypothesis discharged by computing the pipeline there. -/
theorem claim_C2_witness :
    List.Sorted (fun a b : RankRow =>
      b.Soles_por_Contribuyente ≤ a.Soles_por_Contribuyente)
      [⟨"LIMA", 100, 50, 2000000⟩]
    ∧ ([⟨"LIMA", 100, 50, 2000000⟩] : List RankRow).Perm
      (agrupar (df_filtrado [⟨some "Enero", some 2024, "LIMA", 100⟩]
        [⟨some "LIMA", some 2024, "Enero", 50⟩] 2024)) :=
  claim_C2 [⟨some "Enero", some 2024, "LIMA", 100⟩]
    [⟨some "LIMA", some 2024, "Enero", 50⟩] 2024 [⟨"LIMA", 100, 50, 2000000⟩] (by
      have h3 : df_filtrado [⟨some "Enero", some 2024, "LIMA", 100⟩]
          [⟨some "LIMA", some 2024, "Enero", 50⟩] 2024 =
          [⟨some "Enero", some 2024, "LIMA", 100, 50⟩] := by decide
      simp only [procesar_logica, h3]
      norm_num [agrupar, sort_values_desc, List.dedup, List.insertionSort,
        List.orderedInsert, List.pwFilter])
